import Mathlib

/-!
Verification development for the home-energy-meter firmware.

The embedding follows the Python sources:
* `timed_adcs.py` — the `Timed_ADCs` sampler (fixed buffers filled by a timer
  callback, RMS computation over a completed buffer);
* `main.py` — the `measure_task` aggregation loop, the shared
  `current_power` / `current_extra` mailbox variables and the `mqtt_task`
  consumer;
* `esp32_time.py` — the local-time helpers `minutes_now` and `time_str`.

Raw ADC readings are unsigned integers (`array('I')`), embedded as `ℕ`.
Python float arithmetic is embedded as exact arithmetic: `ℝ` where a square
root occurs (the RMS computation), `ℚ` elsewhere (the aggregation loop and
the string formatting).
-/

namespace HomeEnergyMeter

/-- Constant `UV_TO_AMPS = 100 / 500000` from `timed_adcs.py`: conversion from
microvolts to amps for the current transformers. -/
noncomputable def UV_TO_AMPS : ℝ := 100 / 500000

/-- State of a `Timed_ADCs` object (`timed_adcs.py`).  The three buffers
`bufA`, `bufB`, `bufX` are the `array('I')` sample buffers; `index` is the
fill cursor, `ready` the completion flag, `timerOn` whether the periodic
timer is armed (`Timer.init` / `Timer.deinit`). -/
structure Timed_ADCs where
  rate : ℕ
  buf_size : ℕ
  bufA : List ℕ
  bufB : List ℕ
  bufX : List ℕ
  index : ℕ
  ready : Bool
  timerOn : Bool

/-- Constructor `Timed_ADCs.__init__`: zeroed buffers of length `buf_size`, cursor 0,
not ready, timer not yet armed. -/
def Timed_ADCs.init (rate buf_size : ℕ) : Timed_ADCs :=
  { rate := rate
    buf_size := buf_size
    bufA := List.replicate buf_size 0
    bufB := List.replicate buf_size 0
    bufX := List.replicate buf_size 0
    index := 0
    ready := false
    timerOn := false }

/-- Method `Timed_ADCs.adc_callback`: one timer tick.  If the cursor has reached
the buffer size, disarm the timer and set `ready`; otherwise store one raw
reading per channel at the cursor and increment it.  The three readings of
the tick are `a`, `b`, `x`. -/
def adc_callback (t : Timed_ADCs) (a b x : ℕ) : Timed_ADCs :=
  if t.buf_size ≤ t.index then
    { t with timerOn := false, ready := true }
  else
    { t with
      bufA := t.bufA.set t.index a
      bufB := t.bufB.set t.index b
      bufX := t.bufX.set t.index x
      index := t.index + 1 }

/-- Method `Timed_ADCs.read_timed`: start a sampling pass — clear `ready`, reset
the cursor to 0, then arm the periodic timer. -/
def read_timed (t : Timed_ADCs) : Timed_ADCs :=
  { t with ready := false, index := 0, timerOn := true }

/-- The per-channel computation inside `Timed_ADCs.get_RMS`:
`avg = sum(buf) / buf_size`, then the loop `sum += diffy * diffy` over the
buffer with `diffy = item - avg`, then `sqrt(sum / buf_size)`. -/
noncomputable def channelRMS (buf : List ℕ) (n : ℕ) : ℝ :=
  let avg : ℝ := (buf.foldl (fun (acc : ℝ) (item : ℕ) => acc + (item : ℝ)) 0) / n
  let s : ℝ :=
    buf.foldl (fun (acc : ℝ) (item : ℕ) => acc + ((item : ℝ) - avg) * ((item : ℝ) - avg)) 0
  Real.sqrt (s / n)

/-- Method `Timed_ADCs.get_RMS`: the triple of per-channel RMS values of the raw
buffers. -/
noncomputable def get_RMS (t : Timed_ADCs) : ℝ × ℝ × ℝ :=
  (channelRMS t.bufA t.buf_size,
   channelRMS t.bufB t.buf_size,
   channelRMS t.bufX t.buf_size)

/-- Method `Timed_ADCs.get_amps_RMS`: each raw RMS value scaled by `UV_TO_AMPS`. -/
noncomputable def get_amps_RMS (t : Timed_ADCs) : ℝ × ℝ × ℝ :=
  ((get_RMS t).1 * UV_TO_AMPS,
   (get_RMS t).2.1 * UV_TO_AMPS,
   (get_RMS t).2.2 * UV_TO_AMPS)

/-- Spec-side definition (for comparison with `channelRMS`): the arithmetic
mean of the readings of one buffer. -/
noncomputable def specMean (l : List ℕ) : ℝ :=
  ((l.map (fun (x : ℕ) => (x : ℝ))).sum) / l.length

/-- Spec-side definition (for comparison with `channelRMS`): the square
root of the mean of squared deviations from the arithmetic mean. -/
noncomputable def specRMS (l : List ℕ) : ℝ :=
  Real.sqrt (((l.map (fun (x : ℕ) => ((x : ℝ) - specMean l) ^ 2)).sum) / l.length)

/-- Folding `acc + f x` over a list starting from `c` is `c` plus the sum
of the mapped list. -/
theorem foldl_add_eq_sum (f : ℕ → ℝ) :
    ∀ (l : List ℕ) (c : ℝ),
      l.foldl (fun (acc : ℝ) (item : ℕ) => acc + f item) c = c + (l.map f).sum := by
  intro l
  induction l with
  | nil => intro c; simp
  | cons h tl ih =>
    intro c
    simp only [List.foldl_cons, List.map_cons, List.sum_cons]
    rw [ih]
    ring

/-- Lemma: `channelRMS` on a completed buffer (`l.length = n`) agrees with the
spec formula `specRMS`. -/
theorem channelRMS_eq_specRMS (l : List ℕ) (n : ℕ) (hlen : l.length = n) :
    channelRMS l n = specRMS l := by
  subst hlen
  simp only [channelRMS, specRMS, specMean, foldl_add_eq_sum, zero_add]
  congr 2
  congr 1
  apply List.map_congr_left
  intro x _
  ring

/-- Mean removal on a constant buffer: `channelRMS` of `N` copies of `k`
is zero. -/
theorem channelRMS_replicate (k N : ℕ) (hN : 0 < N) :
    channelRMS (List.replicate N k) N = 0 := by
  have hN' : (N : ℝ) ≠ 0 := Nat.cast_ne_zero.mpr hN.ne'
  simp only [channelRMS, foldl_add_eq_sum, zero_add, List.map_replicate,
    List.sum_replicate, nsmul_eq_mul]
  have havg : (N : ℝ) * (k : ℝ) / N = k := by field_simp
  rw [havg]
  simp

/-- Claim C1: on a completed buffer of `N` raw readings per channel,
`get_RMS` returns per channel the square root of the mean of squared
deviations from that channel's arithmetic mean, and `get_amps_RMS` is
each channel's raw RMS times the fixed factor `100 / 500000`. -/
theorem c1_get_RMS_matches_spec (t : Timed_ADCs)
    (hA : t.bufA.length = t.buf_size) (hB : t.bufB.length = t.buf_size)
    (hX : t.bufX.length = t.buf_size) :
    get_RMS t = (specRMS t.bufA, specRMS t.bufB, specRMS t.bufX) ∧
    get_amps_RMS t =
      (specRMS t.bufA * (100 / 500000), specRMS t.bufB * (100 / 500000),
       specRMS t.bufX * (100 / 500000)) := by
  have hA' := channelRMS_eq_specRMS t.bufA t.buf_size hA
  have hB' := channelRMS_eq_specRMS t.bufB t.buf_size hB
  have hX' := channelRMS_eq_specRMS t.bufX t.buf_size hX
  constructor
  · simp [get_RMS, hA', hB', hX']
  · simp [get_amps_RMS, get_RMS, UV_TO_AMPS, hA', hB', hX']

/-- Witness for **C1** at a concrete completed sampler state. -/
theorem c1_get_RMS_matches_spec_witness :
    get_RMS (⟨6000, 2, [1, 3], [2, 2], [0, 4], 2, true, false⟩ : Timed_ADCs) =
      (specRMS [1, 3], specRMS [2, 2], specRMS [0, 4]) ∧
    get_amps_RMS (⟨6000, 2, [1, 3], [2, 2], [0, 4], 2, true, false⟩ : Timed_ADCs) =
      (specRMS [1, 3] * (100 / 500000), specRMS [2, 2] * (100 / 500000),
       specRMS [0, 4] * (100 / 500000)) :=
  c1_get_RMS_matches_spec _ rfl rfl rfl

/-- Claim C8: for a buffer of `N` readings all equal to a constant `k`
(`N = buf_size > 0`), the raw RMS of that channel is zero. -/
theorem c8_constant_buffer_rms_zero (t : Timed_ADCs) (k N : ℕ)
    (hsize : t.buf_size = N) (hN : 0 < N) :
    (t.bufA = List.replicate N k → (get_RMS t).1 = 0) ∧
    (t.bufB = List.replicate N k → (get_RMS t).2.1 = 0) ∧
    (t.bufX = List.replicate N k → (get_RMS t).2.2 = 0) := by
  subst hsize
  refine ⟨fun h => ?_, fun h => ?_, fun h => ?_⟩ <;>
    simp [get_RMS, h, channelRMS_replicate _ _ hN]

/-- Witness for **C8**: three copies of the constant 7 give RMS 0. -/
theorem c8_constant_buffer_rms_zero_witness :
    (get_RMS (⟨6000, 3, List.replicate 3 7, List.replicate 3 7,
        List.replicate 3 7, 3, true, false⟩ : Timed_ADCs)).1 = 0 :=
  (c8_constant_buffer_rms_zero _ 7 3 rfl (by decide)).1 rfl

/-- Claim C7: `read_timed` clears `ready`, resets the cursor and arms the
timer; a tick at capacity disarms the timer and sets `ready`; a tick below
capacity stores one reading per channel at the cursor and increments it;
and both operations keep the cursor within `0 ≤ index ≤ buf_size`. -/
theorem c7_sampler_cursor_invariant (t : Timed_ADCs) (a b x : ℕ) :
    (read_timed t).ready = false ∧
    (read_timed t).index = 0 ∧
    (read_timed t).timerOn = true ∧
    (t.buf_size ≤ t.index →
      (adc_callback t a b x).timerOn = false ∧
      (adc_callback t a b x).ready = true ∧
      (adc_callback t a b x).index = t.index) ∧
    (t.index < t.buf_size →
      (adc_callback t a b x).bufA = t.bufA.set t.index a ∧
      (adc_callback t a b x).bufB = t.bufB.set t.index b ∧
      (adc_callback t a b x).bufX = t.bufX.set t.index x ∧
      (adc_callback t a b x).ready = t.ready ∧
      (adc_callback t a b x).index = t.index + 1) ∧
    (t.index ≤ t.buf_size → (adc_callback t a b x).index ≤ t.buf_size) ∧
    (read_timed t).index ≤ t.buf_size := by
  refine ⟨rfl, rfl, rfl, fun h => ?_, fun h => ?_, fun h => ?_, Nat.zero_le _⟩
  · simp [adc_callback, h]
  · simp [adc_callback, Nat.not_le.mpr h]
  · by_cases hc : t.buf_size ≤ t.index
    · simp [adc_callback, hc]
      exact h
    · have hlt : t.index < t.buf_size := Nat.lt_of_not_le hc
      simp [adc_callback, hc]
      exact hlt

/-- Witness for **C7**: a fresh two-slot sampler takes a fill tick, and a
full one takes the completion tick. -/
theorem c7_sampler_cursor_invariant_witness :
    (read_timed (⟨6000, 2, [0, 0], [0, 0], [0, 0], 0, false, true⟩ : Timed_ADCs)).index = 0 ∧
    (adc_callback (⟨6000, 2, [0, 0], [0, 0], [0, 0], 0, false, true⟩ : Timed_ADCs) 1 2 3).index = 1 ∧
    (adc_callback (⟨6000, 2, [5, 6], [5, 6], [5, 6], 2, false, true⟩ : Timed_ADCs) 1 2 3).ready = true :=
  ⟨(c7_sampler_cursor_invariant ⟨6000, 2, [0, 0], [0, 0], [0, 0], 0, false, true⟩ 1 2 3).2.1,
   ((c7_sampler_cursor_invariant ⟨6000, 2, [0, 0], [0, 0], [0, 0], 0, false, true⟩ 1 2 3).2.2.2.2.1
      (by decide)).2.2.2.2,
   ((c7_sampler_cursor_invariant ⟨6000, 2, [5, 6], [5, 6], [5, 6], 2, false, true⟩ 1 2 3).2.2.2.1
      (by decide)).2.1⟩

/-- Variant of `adc_callback` when a sensor read may raise (`read_uv` failing): the
three reads are evaluated in order with assignments as the Python executes
them, and a raised exception aborts the callback at that point, before the
cursor increment.  The Boolean records whether an exception was raised. -/
def adc_callback_exc (t : Timed_ADCs) (a b x : Option ℕ) : Timed_ADCs × Bool :=
  if t.buf_size ≤ t.index then
    ({ t with timerOn := false, ready := true }, false)
  else
    match a with
    | none => (t, true)
    | some av =>
      let t1 := { t with bufA := t.bufA.set t.index av }
      match b with
      | none => (t1, true)
      | some bv =>
        let t2 := { t1 with bufB := t1.bufB.set t1.index bv }
        match x with
        | none => (t2, true)
        | some xv =>
          ({ t2 with bufX := t2.bufX.set t2.index xv, index := t2.index + 1 }, false)

/-- The gate in `measure_task` around the RMS computation: the loop
`while not timedADCs.ready: await asyncio.sleep_ms(1)` followed by
`amps = timedADCs.get_amps_RMS()`.  One poll: while the sampler is not
ready no amps are produced; only once ready is `get_amps_RMS` evaluated. -/
noncomputable def measureRMSPhase (t : Timed_ADCs) : Option (ℝ × ℝ × ℝ) :=
  if t.ready then some (get_amps_RMS t) else none

/-- Claim C9: a failing sensor read during a pass raises, leaves the cursor
where it was, leaves `ready` false, and hence the measurement task's gated
RMS computation does not consume the partial buffer. -/
theorem c9_failed_read_aborts_pass (t : Timed_ADCs) (a b x : Option ℕ)
    (hidx : t.index < t.buf_size) (hready : t.ready = false)
    (hfail : a = none ∨ b = none ∨ x = none) :
    (adc_callback_exc t a b x).2 = true ∧
    ((adc_callback_exc t a b x).1).ready = false ∧
    ((adc_callback_exc t a b x).1).index = t.index ∧
    measureRMSPhase (adc_callback_exc t a b x).1 = none := by
  have hlt : ¬ t.buf_size ≤ t.index := Nat.not_le.mpr hidx
  rcases hfail with rfl | rfl | rfl
  · simp [adc_callback_exc, hlt, measureRMSPhase, hready]
  · cases a <;> simp [adc_callback_exc, hlt, measureRMSPhase, hready]
  · cases a <;> cases b <;>
      simp [adc_callback_exc, hlt, measureRMSPhase, hready]

/-- Witness for **C9**: channel B's read fails on the first tick of a
two-slot pass. -/
theorem c9_failed_read_aborts_pass_witness :
    (adc_callback_exc (⟨6000, 2, [0, 0], [0, 0], [0, 0], 0, false, true⟩ : Timed_ADCs)
        (some 5) none (some 7)).2 = true ∧
    ((adc_callback_exc (⟨6000, 2, [0, 0], [0, 0], [0, 0], 0, false, true⟩ : Timed_ADCs)
        (some 5) none (some 7)).1).ready = false ∧
    ((adc_callback_exc (⟨6000, 2, [0, 0], [0, 0], [0, 0], 0, false, true⟩ : Timed_ADCs)
        (some 5) none (some 7)).1).index = 0 ∧
    measureRMSPhase (adc_callback_exc
        (⟨6000, 2, [0, 0], [0, 0], [0, 0], 0, false, true⟩ : Timed_ADCs)
        (some 5) none (some 7)).1 = none :=
  c9_failed_read_aborts_pass _ (some 5) none (some 7) (by decide) rfl
    (Or.inr (Or.inl rfl))

/-- A local-time tuple as returned by `utime.localtime` and used by
`esp32_time.time_now`: the hour, minute and second fields together with
the ranges `localtime` guarantees for them. -/
structure TimeTuple where
  hour : ℕ
  minute : ℕ
  second : ℕ
  hour_lt : hour < 24
  minute_lt : minute < 60
  second_lt : second < 60

/-- Function `esp32_time.minutes_now`: `now[3] * 60 + now[4]`, the number of
minutes into the current day. -/
def minutes_now (tt : TimeTuple) : ℕ :=
  tt.hour * 60 + tt.minute

/-- The character of a decimal digit. -/
def digitChar (n : ℕ) : Char := Char.ofNat (48 + n % 10)

/-- Fuel-bounded decimal digits of a natural number, most significant
first. -/
def natToStrCore : ℕ → ℕ → List Char
  | 0, _ => []
  | fuel + 1, n =>
    if n < 10 then [digitChar n]
    else natToStrCore fuel (n / 10) ++ [digitChar (n % 10)]

/-- Python `str` of a nonnegative integer. -/
def natToStr (n : ℕ) : String := ⟨natToStrCore (n + 1) n⟩

/-- Python format `f"{n:02d}"`: zero-padded to width two. -/
def pad2 (n : ℕ) : String :=
  if n < 10 then "0" ++ natToStr n else natToStr n

/-- Function `esp32_time.time_str`: `f"{now[3]:02d}:{now[4]:02d}:{now[5]:02d}"`,
the 24-hour local time string. -/
def time_str (tt : TimeTuple) : String :=
  pad2 tt.hour ++ ":" ++ pad2 tt.minute ++ ":" ++ pad2 tt.second

/-- Python format `f"{x:.2f}"` with the float embedded as an exact
rational: round `x * 100` to the nearest integer and print it with two
digits after the decimal point. -/
def fmt2 (q : ℚ) : String :=
  let c : ℤ := round (q * 100)
  let sign := if c < 0 then "-" else ""
  let m := c.natAbs
  sign ++ natToStr (m / 100) ++ "." ++ pad2 (m % 100)

/-- Constant `MIN_PER_READING` from `main.py`: minutes between transmitted
readings. -/
def MIN_PER_READING : ℕ := 2

/-- Constant `AC_VOLTAGE` from `main.py`: the assumed line voltage. -/
def AC_VOLTAGE : ℚ := 120

/-- The aggregation state of `measure_task` in `main.py`: the running sums
`sum_amps` for phases A, B and Extra, the cycle count, the scheduled
boundary `next_minute`, and the two shared mailbox variables
`current_power` and `current_extra`. -/
structure MeasureState where
  sum_amps : ℚ × ℚ × ℚ
  count : ℕ
  next_minute : ℕ
  current_power : Option String
  current_extra : Option String

/-- The state of `measure_task` before its first loop iteration: sums
zero, count zero, boundary one minute from now, both shared variables
`None`. -/
def initMeasure (tt : TimeTuple) : MeasureState :=
  ⟨(0, 0, 0), 0, minutes_now tt + 1, none, none⟩

/-- The accumulation statements of one `measure_task` iteration:
`sum_amps[i] += amps[i]` for the three channels and `count += 1`. -/
def accumulate (s : MeasureState) (amps : ℚ × ℚ × ℚ) : MeasureState :=
  { s with
    sum_amps := (s.sum_amps.1 + amps.1, s.sum_amps.2.1 + amps.2.1,
      s.sum_amps.2.2 + amps.2.2)
    count := s.count + 1 }

/-- The averages computed inside the minute-boundary branch:
`(sum_amps[i] / count) * AC_VOLTAGE` for each channel. -/
def flushAverages (s : MeasureState) : ℚ × ℚ × ℚ :=
  ((s.sum_amps.1 / (s.count : ℚ)) * AC_VOLTAGE,
   (s.sum_amps.2.1 / (s.count : ℚ)) * AC_VOLTAGE,
   (s.sum_amps.2.2 / (s.count : ℚ)) * AC_VOLTAGE)

/-- The minute-boundary check of `measure_task`: when
`minutes_now() >= next_minute`, compute the averages, reset the sums and
the count, advance `next_minute` by `MIN_PER_READING`, and write the two
formatted Reading strings into the shared variables. -/
def flushCheck (s : MeasureState) (now : ℕ) (tstr : String) : MeasureState :=
  if s.next_minute ≤ now then
    { sum_amps := (0, 0, 0)
      count := 0
      next_minute := s.next_minute + MIN_PER_READING
      current_power :=
        some (tstr ++ "," ++ fmt2 (flushAverages s).1 ++ "," ++
          fmt2 (flushAverages s).2.1)
      current_extra := some (tstr ++ "," ++ fmt2 (flushAverages s).2.2) }
  else s

/-- One iteration of the `measure_task` loop body, with the amps of the
completed pass and the current local time as inputs: accumulate, then the
minute-boundary check. -/
def measureStep (s : MeasureState) (amps : ℚ × ℚ × ℚ) (tt : TimeTuple) :
    MeasureState :=
  flushCheck (accumulate s amps) (minutes_now tt) (time_str tt)

/-- A run of consecutive `measure_task` iterations. -/
def runMeasure (s : MeasureState)
    (inputs : List ((ℚ × ℚ × ℚ) × TimeTuple)) : MeasureState :=
  inputs.foldl (fun st i => measureStep st i.1 i.2) s

/-- Function `accumulate` folded over a list of per-cycle amps triples. -/
def accumMany (s : MeasureState) (ps : List (ℚ × ℚ × ℚ)) : MeasureState :=
  ps.foldl accumulate s

/-- Python truthiness of a shared mailbox variable (`if current_power:`):
`None` and the empty string are falsy, any other string is truthy. -/
def truthy : Option String → Bool
  | none => false
  | some s => !(s == "")

/-- Producer side of a mailbox (`measure_task` assigning to
`current_power` / `current_extra`): the new Reading string replaces
whatever was in the slot. -/
def produce (_slot : Option String) (v : String) : Option String := some v

/-- Consumer side of a mailbox (`mqtt_task`): if the slot is truthy,
publish its value and assign `None` to it; otherwise send nothing and
leave the slot alone.  Returns (message sent, slot afterwards). -/
def consume (slot : Option String) : Option String × Option String :=
  if truthy slot then (slot, none) else (none, slot)


/-- Field-wise description of `accumMany`: running sums add up the
per-cycle values, the count adds the number of cycles, and the boundary
and mailbox variables are untouched. -/
theorem accumMany_fields (ps : List (ℚ × ℚ × ℚ)) :
    ∀ s : MeasureState,
      (accumMany s ps).sum_amps.1 = s.sum_amps.1 + (ps.map Prod.fst).sum ∧
      (accumMany s ps).sum_amps.2.1 =
        s.sum_amps.2.1 + (ps.map (fun p => p.2.1)).sum ∧
      (accumMany s ps).sum_amps.2.2 =
        s.sum_amps.2.2 + (ps.map (fun p => p.2.2)).sum ∧
      (accumMany s ps).count = s.count + ps.length ∧
      (accumMany s ps).next_minute = s.next_minute ∧
      (accumMany s ps).current_power = s.current_power ∧
      (accumMany s ps).current_extra = s.current_extra := by
  induction ps with
  | nil => intro s; simp [accumMany]
  | cons p tl ih =>
    intro s
    have h := ih (accumulate s p)
    simp only [accumMany, List.foldl_cons] at h ⊢
    simp only [List.map_cons, List.sum_cons, List.length_cons]
    refine ⟨?_, ?_, ?_, ?_, ?_, ?_, ?_⟩
    · rw [h.1]; simp only [accumulate]; ring
    · rw [h.2.1]; simp only [accumulate]; ring
    · rw [h.2.2.1]; simp only [accumulate]; ring
    · rw [h.2.2.2.1]; simp only [accumulate]; omega
    · rw [h.2.2.2.2.1]; rfl
    · rw [h.2.2.2.2.2.1]; rfl
    · rw [h.2.2.2.2.2.2]; rfl

/-- Claim C2: `m ≥ 1` accumulation steps with values `p_1..p_m` followed by
a flush yield, per channel, the average `(Σ p_i) / m` times `AC_VOLTAGE`,
and the flushed state has zero sums and count zero. -/
theorem c2_window_average_and_reset (s : MeasureState)
    (ps : List (ℚ × ℚ × ℚ)) (m now : ℕ) (tstr : String)
    (hzero : s.sum_amps = (0, 0, 0)) (hcount : s.count = 0)
    (hm : ps.length = m) (_hm1 : 1 ≤ m)
    (hflush : (accumMany s ps).next_minute ≤ now) :
    flushAverages (accumMany s ps) =
      (((ps.map Prod.fst).sum / (m : ℚ)) * AC_VOLTAGE,
       ((ps.map (fun p => p.2.1)).sum / (m : ℚ)) * AC_VOLTAGE,
       ((ps.map (fun p => p.2.2)).sum / (m : ℚ)) * AC_VOLTAGE) ∧
    (flushCheck (accumMany s ps) now tstr).sum_amps = (0, 0, 0) ∧
    (flushCheck (accumMany s ps) now tstr).count = 0 := by
  obtain ⟨e1, e2, e3, e4, _, _, _⟩ := accumMany_fields ps s
  refine ⟨?_, ?_, ?_⟩
  · have hz1 : s.sum_amps.1 = 0 := by rw [hzero]
    have hz2 : s.sum_amps.2.1 = 0 := by rw [hzero]
    have hz3 : s.sum_amps.2.2 = 0 := by rw [hzero]
    simp [flushAverages, e1, e2, e3, e4, hz1, hz2, hz3, hcount, hm]
  · simp [flushCheck, hflush]
  · simp [flushCheck, hflush]

/-- Witness for **C2**: two cycles of concrete amps, flushed at minute 50
against a boundary of 40. -/
theorem c2_window_average_and_reset_witness :
    flushAverages (accumMany ⟨(0, 0, 0), 0, 40, none, none⟩
        [(1, 2, 3), (5, 6, 7)]) =
      ((([(1, 2, 3), (5, 6, 7)].map
          (Prod.fst (α := ℚ) (β := ℚ × ℚ))).sum / (2 : ℚ)) * AC_VOLTAGE,
       (([((1 : ℚ), (2 : ℚ), (3 : ℚ)), (5, 6, 7)].map
          (fun p => p.2.1)).sum / (2 : ℚ)) * AC_VOLTAGE,
       (([((1 : ℚ), (2 : ℚ), (3 : ℚ)), (5, 6, 7)].map
          (fun p => p.2.2)).sum / (2 : ℚ)) * AC_VOLTAGE) ∧
    (flushCheck (accumMany ⟨(0, 0, 0), 0, 40, none, none⟩
        [(1, 2, 3), (5, 6, 7)]) 50 "00:50:00").sum_amps = (0, 0, 0) ∧
    (flushCheck (accumMany ⟨(0, 0, 0), 0, 40, none, none⟩
        [(1, 2, 3), (5, 6, 7)]) 50 "00:50:00").count = 0 :=
  c2_window_average_and_reset ⟨(0, 0, 0), 0, 40, none, none⟩
    [(1, 2, 3), (5, 6, 7)] 2 50 "00:50:00" rfl rfl rfl (by decide)
    (by simp [accumMany, accumulate])

/-- Claim C3: the minute-boundary branch of `measureStep` divides by the
count of the state right after `accumulate`, and that count is always at
least 1, so the division never divides by zero. -/
theorem c3_flush_count_positive (s : MeasureState) (amps : ℚ × ℚ × ℚ)
    (tt : TimeTuple) :
    0 < (accumulate s amps).count ∧
    measureStep s amps tt =
      flushCheck (accumulate s amps) (minutes_now tt) (time_str tt) :=
  ⟨Nat.succ_pos s.count, rfl⟩

/-- Claim C6: whenever the boundary branch is taken, `next_minute` advances
by exactly `MIN_PER_READING` from its previous scheduled value, however
far the current minute is past the old boundary. -/
theorem c6_next_minute_single_increment (s : MeasureState) (now : ℕ)
    (tstr : String) (hflush : s.next_minute ≤ now) :
    (flushCheck s now tstr).next_minute = s.next_minute + MIN_PER_READING := by
  simp [flushCheck, hflush]

/-- Witness for **C6**: the current minute (100) is far past the old
boundary (10), yet the boundary advances by a single increment to 12. -/
theorem c6_next_minute_single_increment_witness :
    (flushCheck ⟨(1, 2, 3), 5, 10, none, none⟩ 100 "01:40:00").next_minute =
      10 + MIN_PER_READING :=
  c6_next_minute_single_increment ⟨(1, 2, 3), 5, 10, none, none⟩ 100
    "01:40:00" (by decide)

/-- Claim C4: producing twice without a consume keeps only the second
Reading; a consume of a full slot sends its value and clears the slot;
and a consume of the cleared slot sends nothing. -/
theorem c4_mailbox_overwrite_and_clear (slot : Option String)
    (v1 v2 : String) (hfull : truthy slot = true) :
    produce (produce slot v1) v2 = some v2 ∧
    consume slot = (slot, none) ∧
    (consume (consume slot).2).1 = none ∧
    (consume (consume slot).2).2 = none := by
  have h1 : consume slot = (slot, none) := by simp [consume, hfull]
  exact ⟨rfl, h1, by rw [h1]; rfl, by rw [h1]; rfl⟩

/-- Witness for **C4** on a concrete full slot. -/
theorem c4_mailbox_overwrite_and_clear_witness :
    produce (produce (some "07:00:00,1.00,2.00") "a") "b" = some "b" ∧
    consume (some "07:00:00,1.00,2.00") =
      (some "07:00:00,1.00,2.00", none) ∧
    (consume (consume (some "07:00:00,1.00,2.00")).2).1 = none ∧
    (consume (consume (some "07:00:00,1.00,2.00")).2).2 = none :=
  c4_mailbox_overwrite_and_clear (some "07:00:00,1.00,2.00") "a" "b"
    (by decide)

/-- Claim C5: a flush writes `"HH:MM:SS,<valueA>,<valueB>"` to the main
stream and `"HH:MM:SS,<valueExtra>"` to the extra stream, the power values
formatted to two decimal places and the time as 24-hour `HH:MM:SS`; and a
window whose every cycle reads a constant 5.0 A on channel A yields
`600.00` in the channel-A field at the assumed 120 V. -/
theorem c5_reading_format_and_scenario (tt : TimeTuple) (s z : MeasureState)
    (now : ℕ) (ps : List (ℚ × ℚ × ℚ))
    (hflush : s.next_minute ≤ now)
    (hzsum : z.sum_amps = (0, 0, 0)) (hzcount : z.count = 0)
    (hps : 1 ≤ ps.length) (hA : ∀ p ∈ ps, p.1 = 5) :
    (flushCheck s now (time_str tt)).current_power =
      some (time_str tt ++ "," ++ fmt2 (flushAverages s).1 ++ "," ++
        fmt2 (flushAverages s).2.1) ∧
    (flushCheck s now (time_str tt)).current_extra =
      some (time_str tt ++ "," ++ fmt2 (flushAverages s).2.2) ∧
    time_str tt =
      pad2 tt.hour ++ ":" ++ pad2 tt.minute ++ ":" ++ pad2 tt.second ∧
    fmt2 (flushAverages (accumMany z ps)).1 = "600.00" := by
  refine ⟨by simp [flushCheck, hflush], by simp [flushCheck, hflush], rfl, ?_⟩
  obtain ⟨e1, _, _, e4, _, _, _⟩ := accumMany_fields ps z
  have hz1 : z.sum_amps.1 = 0 := by rw [hzsum]
  have hpos : 0 < ps.length := hps
  have hlen0 : (ps.length : ℚ) ≠ 0 := Nat.cast_ne_zero.mpr hpos.ne'
  have hsum : (ps.map Prod.fst).sum = (ps.length : ℚ) * 5 := by
    have hmem : ∀ q ∈ ps.map Prod.fst, q = (5 : ℚ) := by
      intro q hq
      obtain ⟨p, hp, rfl⟩ := List.mem_map.mp hq
      exact hA p hp
    rw [List.sum_eq_card_nsmul (ps.map Prod.fst) (5 : ℚ) hmem,
      List.length_map, nsmul_eq_mul]
  have hcnt : (accumMany z ps).count = ps.length := by
    rw [e4, hzcount, Nat.zero_add]
  have hs1 : (accumMany z ps).sum_amps.1 = (ps.length : ℚ) * 5 := by
    rw [e1, hz1, zero_add, hsum]
  have hval : (flushAverages (accumMany z ps)).1 = 600 := by
    simp only [flushAverages]
    rw [hs1, hcnt, mul_comm ((ps.length : ℚ)) 5, mul_div_assoc,
      div_self hlen0, mul_one]
    norm_num [AC_VOLTAGE]
  rw [hval]
  have h6 : round ((600 : ℚ) * 100) = 60000 := by norm_num [round_eq]
  simp only [fmt2, h6]
  rfl

/-- Witness for **C5** at a concrete time, window state and two-cycle
constant-5A scenario. -/
theorem c5_reading_format_and_scenario_witness :
    (flushCheck ⟨(10, 20, 30), 4, 100, none, none⟩ 100
        (time_str ⟨7, 30, 15, by decide, by decide, by decide⟩)).current_power =
      some (time_str ⟨7, 30, 15, by decide, by decide, by decide⟩ ++ "," ++
        fmt2 (flushAverages ⟨(10, 20, 30), 4, 100, none, none⟩).1 ++ "," ++
        fmt2 (flushAverages ⟨(10, 20, 30), 4, 100, none, none⟩).2.1) ∧
    (flushCheck ⟨(10, 20, 30), 4, 100, none, none⟩ 100
        (time_str ⟨7, 30, 15, by decide, by decide, by decide⟩)).current_extra =
      some (time_str ⟨7, 30, 15, by decide, by decide, by decide⟩ ++ "," ++
        fmt2 (flushAverages ⟨(10, 20, 30), 4, 100, none, none⟩).2.2) ∧
    time_str ⟨7, 30, 15, by decide, by decide, by decide⟩ =
      pad2 7 ++ ":" ++ pad2 30 ++ ":" ++ pad2 15 ∧
    fmt2 (flushAverages (accumMany ⟨(0, 0, 0), 0, 50, none, none⟩
        [(5, 1, 2), (5, 3, 4)])).1 = "600.00" :=
  c5_reading_format_and_scenario ⟨7, 30, 15, by decide, by decide, by decide⟩
    ⟨(10, 20, 30), 4, 100, none, none⟩ ⟨(0, 0, 0), 0, 50, none, none⟩ 100
    [(5, 1, 2), (5, 3, 4)] (by decide) rfl rfl (by decide)
    (by intro p hp; fin_cases hp <;> rfl)

/-- Lemma: `minutes_now` never exceeds 1439 (23 hours, 59 minutes). -/
theorem minutes_now_le (tt : TimeTuple) : minutes_now tt ≤ 1439 := by
  have h1 := tt.hour_lt
  have h2 := tt.minute_lt
  simp only [minutes_now]
  omega

/-- A `measureStep` never decreases `next_minute`. -/
theorem measureStep_next_minute_mono (s : MeasureState) (amps : ℚ × ℚ × ℚ)
    (tt : TimeTuple) :
    s.next_minute ≤ (measureStep s amps tt).next_minute := by
  unfold measureStep flushCheck
  by_cases hc : (accumulate s amps).next_minute ≤ minutes_now tt
  · rw [if_pos hc]
    simp only [accumulate]
    omega
  · rw [if_neg hc]
    simp only [accumulate]
    omega

/-- Once `next_minute` is at or past 1440, a step takes the no-flush
branch and changes neither `next_minute` nor the mailbox variables. -/
theorem measureStep_no_flush (s : MeasureState) (amps : ℚ × ℚ × ℚ)
    (tt : TimeTuple) (h : 1440 ≤ s.next_minute) :
    (measureStep s amps tt).next_minute = s.next_minute ∧
    (measureStep s amps tt).current_power = s.current_power ∧
    (measureStep s amps tt).current_extra = s.current_extra := by
  have hm := minutes_now_le tt
  have hc : ¬ (accumulate s amps).next_minute ≤ minutes_now tt := by
    simp only [accumulate]
    omega
  unfold measureStep flushCheck
  rw [if_neg hc]
  exact ⟨rfl, rfl, rfl⟩

/-- Lemma `measureStep_no_flush` extended over any run of iterations. -/
theorem runMeasure_no_flush (inputs : List ((ℚ × ℚ × ℚ) × TimeTuple)) :
    ∀ s : MeasureState, 1440 ≤ s.next_minute →
      (runMeasure s inputs).next_minute = s.next_minute ∧
      (runMeasure s inputs).current_power = s.current_power ∧
      (runMeasure s inputs).current_extra = s.current_extra := by
  induction inputs with
  | nil => intro s _; exact ⟨rfl, rfl, rfl⟩
  | cons i tl ih =>
    intro s h
    have hstep := measureStep_no_flush s i.1 i.2 h
    have h' : 1440 ≤ (measureStep s i.1 i.2).next_minute := by
      rw [hstep.1]; exact h
    have htl := ih (measureStep s i.1 i.2) h'
    simp only [runMeasure, List.foldl_cons] at htl ⊢
    exact ⟨by rw [htl.1, hstep.1], by rw [htl.2.1, hstep.2.1],
      by rw [htl.2.2, hstep.2.2]⟩

/-- Claim C10: `minutes_now` stays within `[0, 1439]`, `next_minute` starts
at `minutes_now + 1` and never decreases, and from any state with
`next_minute ≥ 1440` no later iteration can satisfy the flush condition,
so the mailbox variables are never written again. -/
theorem c10_no_reading_after_day_end (s s0 : MeasureState)
    (inputs : List ((ℚ × ℚ × ℚ) × TimeTuple)) (tt : TimeTuple)
    (amps0 : ℚ × ℚ × ℚ) (h : 1440 ≤ s.next_minute) :
    minutes_now tt ≤ 1439 ∧
    (initMeasure tt).next_minute = minutes_now tt + 1 ∧
    s0.next_minute ≤ (measureStep s0 amps0 tt).next_minute ∧
    1440 ≤ (runMeasure s inputs).next_minute ∧
    ¬ (runMeasure s inputs).next_minute ≤ minutes_now tt ∧
    (runMeasure s inputs).current_power = s.current_power ∧
    (runMeasure s inputs).current_extra = s.current_extra := by
  obtain ⟨hn, hp, he⟩ := runMeasure_no_flush inputs s h
  have hm := minutes_now_le tt
  refine ⟨hm, rfl, measureStep_next_minute_mono s0 amps0 tt, ?_, ?_, hp, he⟩
  · rw [hn]; exact h
  · rw [hn]; omega

/-- Witness for **C10**: a state whose boundary has passed the end of the
day takes one further step without producing anything. -/
theorem c10_no_reading_after_day_end_witness :
    minutes_now ⟨0, 5, 0, by decide, by decide, by decide⟩ ≤ 1439 ∧
    (initMeasure ⟨0, 5, 0, by decide, by decide, by decide⟩).next_minute =
      minutes_now ⟨0, 5, 0, by decide, by decide, by decide⟩ + 1 ∧
    (⟨(2, 2, 2), 3, 7, none, none⟩ : MeasureState).next_minute ≤
      (measureStep ⟨(2, 2, 2), 3, 7, none, none⟩ (1, 2, 3)
        ⟨0, 5, 0, by decide, by decide, by decide⟩).next_minute ∧
    1440 ≤ (runMeasure ⟨(0, 0, 0), 0, 1441, none, none⟩
      [((1, 1, 1), ⟨23, 59, 30, by decide, by decide, by decide⟩)]).next_minute ∧
    ¬ (runMeasure ⟨(0, 0, 0), 0, 1441, none, none⟩
        [((1, 1, 1), ⟨23, 59, 30, by decide, by decide, by decide⟩)]).next_minute ≤
      minutes_now ⟨0, 5, 0, by decide, by decide, by decide⟩ ∧
    (runMeasure ⟨(0, 0, 0), 0, 1441, none, none⟩
      [((1, 1, 1), ⟨23, 59, 30, by decide, by decide, by decide⟩)]).current_power =
      (⟨(0, 0, 0), 0, 1441, none, none⟩ : MeasureState).current_power ∧
    (runMeasure ⟨(0, 0, 0), 0, 1441, none, none⟩
      [((1, 1, 1), ⟨23, 59, 30, by decide, by decide, by decide⟩)]).current_extra =
      (⟨(0, 0, 0), 0, 1441, none, none⟩ : MeasureState).current_extra :=
  c10_no_reading_after_day_end ⟨(0, 0, 0), 0, 1441, none, none⟩
    ⟨(2, 2, 2), 3, 7, none, none⟩
    [((1, 1, 1), ⟨23, 59, 30, by decide, by decide, by decide⟩)]
    ⟨0, 5, 0, by decide, by decide, by decide⟩ (1, 2, 3) (by decide)
